import Mathlib

/-!
# Verification of the DMI ice-chart catalog core (`src/process.py`)

Shallow embedding of the catalog core of `process.py`:

* `create_stac_item` (lines 113–138): the catalog item synthesizer,
* `add_style_link` (lines 141–163): the style link attacher,
* `merge_items_per_day` (lines 165–210): the per-day merge engine, with
  `merged_records` as the record list its loop builds (lines 166–208).

Modelling choices:

* A catalog is a list of `StacItem` records (rows of the in-memory table,
  in row order).  Columnar persistence (parquet file read/write) is an
  excluded collaborator, but the output-table construction of line 210 is
  part of the merge engine and is modelled: `gpd.GeoDataFrame(records,
  geometry="geometry", crs=...)` returns the table of the records when
  the list is non-empty, and raises `ValueError("Unknown column
  geometry")` when it is empty (the empty frame has no columns, so
  `set_geometry("geometry")` fails), hence `merge_items_per_day` returns
  `Except String (List StacItem)`.
* Geometries are modelled by `Geom`: either the empty geometry or an
  axis-aligned rectangle with integer coordinates.  `union_all(...).envelope`
  reduces, on the bounds that all downstream code observes, to the
  coordinate-wise hull of the non-empty inputs (`unionEnvelope`), and the
  empty geometry when no non-empty geometry is present.  `NaN` bounds of
  an empty geometry are modelled as `none`.
* Asset dictionary values may be null (`Option Asset`); the merge engine
  filters them with `if asset`.  The `assets` cell itself always holds a
  dictionary in this embedding (in the pipeline every row's `assets` cell
  is a dict, so `isinstance(assets, dict)` on line 176 is always true).
* `pd.to_datetime` applied to a value that is already a timestamp (or
  `None`/`NaT`) is the identity on our `Option Int` timestamp model.
* Python dicts preserve insertion order, so an assets dict is an ordered
  association list `List (String × Option Asset)`.
* `os.getenv("STYLE_URL", "")` is passed to `add_style_link` as an explicit
  `String` parameter (absent env var = `""`).
-/

/-- An axis-aligned rectangle: the shape of every envelope geometry. -/
structure Rect where
  minX : Int
  minY : Int
  maxX : Int
  maxY : Int
deriving DecidableEq, Repr

/-- A geometry cell: the empty geometry, or an axis-aligned rectangle. -/
inductive Geom where
  | empty : Geom
  | rect : Rect → Geom
deriving DecidableEq, Repr

/-- Coordinate-wise hull of two rectangles (bounds of their union). -/
def Rect.hull (a b : Rect) : Rect :=
  ⟨min a.minX b.minX, min a.minY b.minY, max a.maxX b.maxX, max a.maxY b.maxY⟩

/-- `union_all(gpd.GeoSeries(gs)).envelope`: the envelope of the union of a
list of geometries — the bounding rectangle of all non-empty members, and
the empty geometry if there is none (`union_all([])` is the empty
geometry collection, whose envelope is empty). -/
def unionEnvelope (gs : List Geom) : Geom :=
  match gs.filterMap (fun g => match g with | .empty => none | .rect r => some r) with
  | [] => .empty
  | r :: rs => .rect (rs.foldl Rect.hull r)

/-- `.bounds` of a geometry, as the 4-element list the code stores in
`bbox`.  The empty geometry has `NaN` bounds, modelled as `none`. -/
def Geom.boundsList : Geom → List (Option Int)
  | .empty => [none, none, none, none]
  | .rect r => [some r.minX, some r.minY, some r.maxX, some r.maxY]

/-- An asset descriptor (`{"href": ..., "type": ..., "roles": [...]}`). -/
structure Asset where
  href : String
  type : String
  roles : List String
deriving DecidableEq, Repr

/-- A link dictionary.  `link.get(k)` returns `none` when the key is
absent, so every field is optional. -/
structure Link where
  rel : Option String
  href : Option String
  type : Option String
  assetKeys : Option (List String)
deriving DecidableEq, Repr

/-- One row of a catalog table (columns `id, type, stac_version, datetime,
geometry, bbox, assets, links`).  `datetime` is a day-start timestamp,
`none` modelling `NaT`. -/
@[ext]
structure StacItem where
  type : String
  stac_version : String
  id : String
  datetime : Option Int
  geometry : Geom
  bbox : List (Option Int)
  assets : List (String × Option Asset)
  links : List Link
deriving DecidableEq, Repr

/-- An element of the `assets` argument of `create_stac_item`: a dict
`{"url": ..., "geometry": ...}`. -/
structure AssetSpec where
  url : String
  geometry : Geom
deriving DecidableEq, Repr

/-- `create_stac_item(date, id, assets, asset_type)` (lines 113–138):
unions the spec geometries and takes the envelope, derives `bbox` from it,
re-keys the assets to `asset_0, asset_1, …` in input order, and returns
the record with empty `links`.  The function performs no validation. -/
def create_stac_item (date : Option Int) (id : String)
    (assets : List AssetSpec) (asset_type : String) : StacItem :=
  let envelope := unionEnvelope (assets.map AssetSpec.geometry)
  { type := "Feature"
    stac_version := "1.0.0"
    id := id
    datetime := date
    geometry := envelope
    bbox := envelope.boundsList
    assets := assets.enum.map
      (fun p => ("asset_" ++ toString p.1,
                 some { href := p.2.url, type := asset_type, roles := ["data"] }))
    links := [] }

/-- `add_style_link(row)` (lines 141–163), with the `STYLE_URL` environment
value as an explicit parameter.  Returns the new `links` list: unchanged
when the style URL is empty or the row has no asset keys; otherwise all
non-style links in order, followed by one fresh style link carrying the
current asset keys. -/
def add_style_link (STYLE_URL : String) (row : StacItem) : List Link :=
  if STYLE_URL = "" then row.links
  else
    let asset_keys := row.assets.map Prod.fst
    if asset_keys = [] then row.links
    else
      let links := row.links.filter (fun link => link.rel ≠ some "style")
      links ++ [{ rel := some "style"
                  href := some STYLE_URL
                  type := some "text/vector-styles"
                  assetKeys := some asset_keys }]

/-- The sorted list of distinct `id` values of a table: the keys of
`df.groupby("id")` in iteration order (pandas sorts group keys). -/
def groupKeys (df : List StacItem) : List String :=
  ((df.map StacItem.id).dedup).insertionSort (· ≤ ·)

/-- Lines 173–179: flatten the asset dict values of a group in member
order, dropping null entries (`if asset`). -/
def flatAssets (g : List StacItem) : List Asset :=
  g.flatMap (fun it => (it.assets.map Prod.snd).filterMap id)

/-- The `(rel, href)` dedup key of a link (line 191). -/
def linkKey (l : Link) : Option String × Option String :=
  (l.rel, l.href)

/-- Lines 186–194: stable dedup of links by `(rel, href)`, keeping the
first occurrence; `seen` is the accumulated key set. -/
def dedupLinks (seen : List (Option String × Option String)) :
    List Link → List Link
  | [] => []
  | l :: ls =>
    if linkKey l ∈ seen then dedupLinks seen ls
    else l :: dedupLinks (linkKey l :: seen) ls

/-- The record emitted for one group of `df.groupby("id")`
(lines 169–208): envelope of the union of member geometries, `bbox`
recomputed from it, first member's `datetime`, flattened re-keyed assets,
links deduplicated by `(rel, href)`. -/
def merge_one (item_id : String) (g : List StacItem) : StacItem :=
  let merged_geom := unionEnvelope (g.map StacItem.geometry)
  let flat_assets := flatAssets g
  { type := "Feature"
    stac_version := "1.0.0"
    id := item_id
    geometry := merged_geom
    bbox := merged_geom.boundsList
    datetime := (g.head?.map StacItem.datetime).join
    assets := flat_assets.enum.map (fun p => ("asset_" ++ toString p.1, some p.2))
    links := dedupLinks [] (g.flatMap StacItem.links) }

/-- The `merged_records` list built by the loop of `merge_items_per_day`
(lines 166–208): one merged record per distinct `id`, in sorted key
order; each group holds the rows with that `id` in their original row
order. -/
def merged_records (df : List StacItem) : List StacItem :=
  (groupKeys df).map (fun k => merge_one k (df.filter (fun it => it.id = k)))

/-- `merge_items_per_day(df)` (lines 165–210).  Line 210 returns
`gpd.GeoDataFrame(merged_records, geometry="geometry", crs="EPSG:4326")`:
for a non-empty record list this is the table of those rows, but for an
empty record list the underlying frame has no columns, so
`set_geometry("geometry")` raises `ValueError("Unknown column geometry")`
— modelled as `Except.error`. -/
def merge_items_per_day (df : List StacItem) : Except String (List StacItem) :=
  if merged_records df = [] then Except.error "Unknown column geometry"
  else Except.ok (merged_records df)

/-- The contiguous zero-based asset key sequence `asset_0 … asset_{n-1}`. -/
def assetKeyNames (n : Nat) : List String :=
  (List.range n).map (fun i => "asset_" ++ toString i)

/-! ## Sample catalog rows

Concrete inputs for the witness and counterexample theorems (the two
folders of the spec's concrete scenario, plus link/asset variants). -/

def itA0 : StacItem :=
  { type := "Feature", stac_version := "1.0.0", id := "2024-01-01",
    datetime := some 100, geometry := .rect ⟨0, 0, 1, 1⟩,
    bbox := [some 0, some 0, some 1, some 1],
    assets := [("asset_0",
      some ⟨"https://b.example/20240101_A.fgb", "application/vnd.flatgeobuf", ["data"]⟩)],
    links := [] }

def itB0 : StacItem :=
  { type := "Feature", stac_version := "1.0.0", id := "2024-01-01",
    datetime := some 100, geometry := .rect ⟨2, 2, 3, 3⟩,
    bbox := [some 2, some 2, some 3, some 3],
    assets := [("asset_0",
      some ⟨"https://b.example/20240101_B.fgb", "application/vnd.flatgeobuf", ["data"]⟩)],
    links := [] }

def mergedAB : StacItem :=
  merge_one "2024-01-01" ([itA0, itB0].filter (fun it => it.id = "2024-01-01"))

/-- A sample row with no assets and a pre-existing non-style link. -/
def rowNoAssets : StacItem :=
  { type := "Feature", stac_version := "1.0.0", id := "2024-01-02",
    datetime := some 200, geometry := .empty,
    bbox := [none, none, none, none], assets := [],
    links := [⟨some "about", some "https://docs.example/ice", none, none⟩] }

/-- Two same-day rows whose only links are style links with different
hrefs (as arise when the configured style URL changes between
orchestrator runs before the next run of `add_style_link`). -/
def styleU1 : StacItem :=
  { itA0 with links :=
      [⟨some "style", some "https://s.example/a.json",
        some "text/vector-styles", some ["asset_0"]⟩] }

def styleU2 : StacItem :=
  { itB0 with links :=
      [⟨some "style", some "https://s.example/b.json",
        some "text/vector-styles", some ["asset_0"]⟩] }

/-- Two same-day rows carrying the same `(rel, href)` link twice. -/
def itL1 : StacItem :=
  { itA0 with links := [⟨some "about", some "https://docs.example/ice", none, none⟩] }

def itL2 : StacItem :=
  { itB0 with links := [⟨some "about", some "https://docs.example/ice", none, none⟩] }

def mergedL : StacItem :=
  merge_one "2024-01-01" ([itL1, itL2].filter (fun it => it.id = "2024-01-01"))

/-- One FlatGeobuf asset descriptor shared by both sample rows below. -/
def dupAsset : Asset :=
  ⟨"https://b.example/20240101.fgb", "application/vnd.flatgeobuf", ["data"]⟩

def itD1 : StacItem := { itA0 with assets := [("asset_0", some dupAsset)] }

def itD2 : StacItem := { itB0 with assets := [("asset_0", some dupAsset)] }

def mergedD : StacItem :=
  merge_one "2024-01-01" ([itD1, itD2].filter (fun it => it.id = "2024-01-01"))

/-! ## Basic lemmas about the embedded operations -/

theorem merge_one_id (k : String) (g : List StacItem) : (merge_one k g).id = k := rfl

theorem merge_map_id (df : List StacItem) :
    (merged_records df).map StacItem.id = groupKeys df := by
  unfold merged_records
  rw [List.map_map]
  simp [Function.comp_def, merge_one_id]

theorem groupKeys_sorted (df : List StacItem) : (groupKeys df).Sorted (· ≤ ·) :=
  List.sorted_insertionSort _ _

theorem groupKeys_nodup (df : List StacItem) : (groupKeys df).Nodup :=
  ((List.perm_insertionSort _ _).nodup_iff).mpr (List.nodup_dedup _)

theorem sorted_nodup_groupKeys_fix {l : List String}
    (hs : l.Sorted (· ≤ ·)) (hn : l.Nodup) :
    (l.dedup).insertionSort (· ≤ ·) = l := by
  rw [List.dedup_eq_self.mpr hn]
  exact hs.insertionSort_eq

theorem groupKeys_merge (df : List StacItem) :
    groupKeys (merged_records df) = groupKeys df := by
  show ((merged_records df).map StacItem.id).dedup.insertionSort (· ≤ ·)
      = groupKeys df
  rw [merge_map_id]
  exact sorted_nodup_groupKeys_fix (groupKeys_sorted df) (groupKeys_nodup df)

theorem unionEnvelope_single (g : Geom) : unionEnvelope [g] = g := by
  cases g <;> rfl

theorem dedupLinks_props :
    ∀ (ls : List Link) (seen : List (Option String × Option String)),
      ((dedupLinks seen ls).map linkKey).Nodup ∧
      ∀ l ∈ dedupLinks seen ls, linkKey l ∉ seen
  | [], _ => ⟨List.nodup_nil, by intro l h; cases h⟩
  | l :: ls, seen => by
    by_cases h : linkKey l ∈ seen
    · rw [dedupLinks, if_pos h]
      exact dedupLinks_props ls seen
    · rw [dedupLinks, if_neg h]
      obtain ⟨hnd, hmem⟩ := dedupLinks_props ls (linkKey l :: seen)
      refine ⟨List.nodup_cons.mpr ⟨?_, hnd⟩, ?_⟩
      · intro hk
        obtain ⟨l', hl', hkey⟩ := List.mem_map.mp hk
        exact hmem l' hl' (hkey ▸ List.mem_cons_self _ _)
      · intro l' hl'
        rcases List.mem_cons.mp hl' with rfl | hl'
        · exact h
        · intro hs
          exact hmem l' hl' (List.mem_cons_of_mem _ hs)

theorem dedupLinks_eq_self :
    ∀ (ls : List Link) (seen : List (Option String × Option String)),
      (ls.map linkKey).Nodup → (∀ l ∈ ls, linkKey l ∉ seen) →
      dedupLinks seen ls = ls
  | [], _, _, _ => rfl
  | l :: ls, seen, hnd, hout => by
    have h : linkKey l ∉ seen := hout l (List.mem_cons_self _ _)
    rw [dedupLinks, if_neg h]
    obtain ⟨hhead, htail⟩ := List.nodup_cons.mp hnd
    congr 1
    refine dedupLinks_eq_self ls _ htail ?_
    intro l' hl'
    intro hs
    rcases List.mem_cons.mp hs with hkey | hs
    · exact hhead (hkey ▸ List.mem_map_of_mem linkKey hl')
    · exact hout l' (List.mem_cons_of_mem _ hl') hs

theorem dedupLinks_idem (ls : List Link) :
    dedupLinks [] (dedupLinks [] ls) = dedupLinks [] ls :=
  dedupLinks_eq_self _ _ (dedupLinks_props ls []).1 (by intro l _ h; cases h)

theorem filterMap_id_map_some {α β : Type} (l : List α) (f : α → β) :
    (l.map (fun a => some (f a))).filterMap id = l.map f := by
  induction l with
  | nil => rfl
  | cons a l ih => simp [List.filterMap_cons, ih]

theorem flatAssets_merge_one (k : String) (g : List StacItem) :
    flatAssets [merge_one k g] = flatAssets g := by
  show ((merge_one k g).assets.map Prod.snd).filterMap id ++ [] = flatAssets g
  rw [List.append_nil]
  show (((flatAssets g).enum.map
      (fun p => ("asset_" ++ toString p.1, some p.2))).map Prod.snd).filterMap id
      = flatAssets g
  rw [List.map_map]
  have h : (Prod.snd ∘ fun p : Nat × Asset => ("asset_" ++ toString p.1, some p.2))
      = (fun p : Nat × Asset => some (Prod.snd p)) := rfl
  rw [h, filterMap_id_map_some, List.enum_map_snd]

theorem merge_one_single (k : String) (g : List StacItem) :
    merge_one k [merge_one k g] = merge_one k g := by
  have hgeom : (merge_one k [merge_one k g]).geometry = (merge_one k g).geometry := by
    show unionEnvelope [(merge_one k g).geometry] = (merge_one k g).geometry
    exact unionEnvelope_single _
  have hbbox : (merge_one k [merge_one k g]).bbox = (merge_one k g).bbox := by
    show (merge_one k [merge_one k g]).geometry.boundsList
        = (merge_one k g).geometry.boundsList
    rw [hgeom]
  have hassets : (merge_one k [merge_one k g]).assets = (merge_one k g).assets := by
    show (flatAssets [merge_one k g]).enum.map
        (fun p => ("asset_" ++ toString p.1, some p.2)) = (merge_one k g).assets
    rw [flatAssets_merge_one]
    rfl
  have hlinks : (merge_one k [merge_one k g]).links = (merge_one k g).links := by
    show dedupLinks [] ((merge_one k g).links ++ []) = (merge_one k g).links
    rw [List.append_nil]
    exact dedupLinks_idem _
  exact StacItem.ext rfl rfl rfl rfl hgeom hbbox hassets hlinks

theorem filter_key_singleton {l : List String} {k : String}
    (hn : l.Nodup) (hk : k ∈ l) : l.filter (fun x => x = k) = [k] := by
  induction l with
  | nil => cases hk
  | cons a l ih =>
    rw [List.filter_cons]
    rcases List.mem_cons.mp hk with rfl | h
    · rw [if_pos (by simp)]
      have hnil : l.filter (fun x => x = k) = [] := by
        rw [List.filter_eq_nil_iff]
        intro b hb
        simp only [decide_eq_true_eq]
        rintro rfl
        exact (List.nodup_cons.mp hn).1 hb
      rw [hnil]
    · have hne : a ≠ k := by
        rintro rfl
        exact (List.nodup_cons.mp hn).1 h
      rw [if_neg (by simpa using hne)]
      exact ih (List.nodup_cons.mp hn).2 h

theorem merge_filter_eq (df : List StacItem) {k : String} (hk : k ∈ groupKeys df) :
    (merged_records df).filter (fun it => it.id = k)
      = [merge_one k (df.filter (fun it => it.id = k))] := by
  unfold merged_records
  rw [List.filter_map]
  have h1 : ((groupKeys df).filter
      ((fun it => decide (it.id = k)) ∘ fun x => merge_one x (df.filter (fun it => it.id = x))))
      = (groupKeys df).filter (fun x => x = k) := by
    apply List.filter_congr
    intro a _
    simp [Function.comp, merge_one_id]
  rw [h1, filter_key_singleton (groupKeys_nodup df) hk]
  rfl

theorem merged_records_idem (X : List StacItem) :
    merged_records (merged_records X) = merged_records X := by
  show (groupKeys (merged_records X)).map
      (fun k => merge_one k ((merged_records X).filter (fun it => it.id = k)))
      = merged_records X
  rw [groupKeys_merge]
  have h : ∀ k ∈ groupKeys X,
      merge_one k ((merged_records X).filter (fun it => it.id = k))
        = merge_one k (X.filter (fun it => it.id = k)) := by
    intro k hk
    rw [merge_filter_eq X hk, merge_one_single]
  exact List.map_congr_left h

theorem merged_records_ne_nil {X : List StacItem} (hX : X ≠ []) :
    merged_records X ≠ [] := by
  intro h
  obtain ⟨it, hit⟩ := List.exists_mem_of_ne_nil X hX
  have hmem : it.id ∈ groupKeys X := by
    unfold groupKeys
    rw [(List.perm_insertionSort _ _).mem_iff, List.mem_dedup]
    exact List.mem_map_of_mem StacItem.id hit
  unfold merged_records at h
  rw [List.map_eq_nil_iff] at h
  rw [h] at hmem
  cases hmem

theorem merge_ok (X : List StacItem) (hX : merged_records X ≠ []) :
    merge_items_per_day X = Except.ok (merged_records X) := by
  unfold merge_items_per_day
  rw [if_neg hX]

theorem merge_ok_eq {X Y : List StacItem}
    (h : merge_items_per_day X = Except.ok Y) : Y = merged_records X := by
  unfold merge_items_per_day at h
  by_cases hc : merged_records X = []
  · rw [if_pos hc] at h
    cases h
  · rw [if_neg hc] at h
    injection h with h2
    exact h2.symm

/-! ## Claim theorems -/

/-- Counterexample for C1 (and the source of C2's bug): on the empty
catalog the merge engine yields no table at all — line 210's
`gpd.GeoDataFrame([], geometry="geometry", crs=...)` raises `ValueError`
— so the claimed table equation `merge(merge([])) == merge([])` has no
table on either side. -/
theorem merge_empty_yields_no_table :
    (merge_items_per_day []).toOption = none := rfl

/-- C1 (amended): the merge engine is idempotent on every catalog on
which it returns a table, i.e. every non-empty `X`: `merge X` succeeds
with a table `Y` and merging `Y` again returns `Y` unchanged.  On
`X = []` the engine raises `ValueError` instead of yielding a table, and
composing through that error is still a no-op:
`(merge X) >>= merge = merge X` for every `X`. -/
theorem merge_items_per_day_idempotent (X : List StacItem) :
    (merge_items_per_day X).bind merge_items_per_day = merge_items_per_day X ∧
    (X ≠ [] → ∃ Y, merge_items_per_day X = Except.ok Y ∧
        merge_items_per_day Y = Except.ok Y) := by
  by_cases h : merged_records X = []
  · have herr : merge_items_per_day X = Except.error "Unknown column geometry" := by
      unfold merge_items_per_day
      rw [if_pos h]
    constructor
    · rw [herr]
      rfl
    · intro hX
      exact absurd h (merged_records_ne_nil hX)
  · have hok := merge_ok X h
    have hagain : merge_items_per_day (merged_records X)
        = Except.ok (merged_records X) := by
      have h2 : merged_records (merged_records X) ≠ [] := by
        rw [merged_records_idem]
        exact h
      rw [merge_ok (merged_records X) h2, merged_records_idem]
    constructor
    · rw [hok]
      exact hagain
    · intro _
      exact ⟨merged_records X, hok, hagain⟩

/-- Witness for C1: on the non-empty two-row sample catalog, merging
succeeds and re-merging its output is a no-op. -/
theorem merge_items_per_day_idempotent_witness :
    [itA0, itB0] ≠ ([] : List StacItem) ∧
    (∃ Y, merge_items_per_day [itA0, itB0] = Except.ok Y ∧
        merge_items_per_day Y = Except.ok Y) :=
  ⟨by decide, (merge_items_per_day_idempotent [itA0, itB0]).2 (by decide)⟩

/-- C2: the claim says an entirely empty input catalog yields an empty
output catalog without error, but the code raises: with zero groups,
`merged_records = []` and line 210's
`gpd.GeoDataFrame([], geometry="geometry", crs="EPSG:4326")` raises
`ValueError("Unknown column geometry")` (the empty frame has no columns
for `set_geometry` to find).  The spec's intent (empty in, empty out,
valid) is contradicted by the code — a code bug, evaluated here at the
failing input. -/
theorem merge_items_per_day_empty_raises :
    merge_items_per_day [] = Except.error "Unknown column geometry" := rfl

/-- C4: for every catalog `X` on which the merge engine returns a table
`Y`, the `id` values of `Y` are pairwise distinct; there is exactly one
output record per distinct input `id` (the output ids are exactly the
distinct input ids, and the output length is the number of distinct
input ids).  Every input row lands in exactly one partition — the one of
its own `id`. -/
theorem merge_ids_pairwise_distinct (X : List StacItem) :
    ∀ Y, merge_items_per_day X = Except.ok Y →
      (Y.map StacItem.id).Nodup ∧
      (∀ k, k ∈ Y.map StacItem.id ↔ k ∈ X.map StacItem.id) ∧
      Y.length = (X.map StacItem.id).dedup.length := by
  intro Y hY
  obtain rfl := merge_ok_eq hY
  refine ⟨?_, ?_, ?_⟩
  · rw [merge_map_id]
    exact groupKeys_nodup X
  · intro k
    rw [merge_map_id]
    unfold groupKeys
    rw [(List.perm_insertionSort _ _).mem_iff, List.mem_dedup]
  · have hlen := congrArg List.length (merge_map_id X)
    rw [List.length_map] at hlen
    rw [hlen]
    unfold groupKeys
    exact (List.perm_insertionSort _ _).length_eq

/-- Witness for C4: on the two-row sample catalog the merge succeeds and
its output ids are distinct, are exactly the distinct input ids, and
number one per distinct input id. -/
theorem merge_ids_pairwise_distinct_witness :
    merge_items_per_day [itA0, itB0] = Except.ok (merged_records [itA0, itB0]) ∧
    ((merged_records [itA0, itB0]).map StacItem.id).Nodup ∧
    (∀ k, k ∈ (merged_records [itA0, itB0]).map StacItem.id
        ↔ k ∈ [itA0, itB0].map StacItem.id) ∧
    (merged_records [itA0, itB0]).length
        = ([itA0, itB0].map StacItem.id).dedup.length := by
  refine ⟨rfl, merge_ids_pairwise_distinct [itA0, itB0] _ rfl⟩

/-- C10: whenever the merge engine returns a table, its rows are ordered
by `id` in ascending sorted order (pandas `groupby` sorts its keys), so
the output order is deterministic and sorted for every input catalog. -/
theorem merge_output_sorted_by_id (X : List StacItem) :
    ∀ Y, merge_items_per_day X = Except.ok Y →
      (Y.map StacItem.id).Sorted (· ≤ ·) := by
  intro Y hY
  obtain rfl := merge_ok_eq hY
  rw [merge_map_id]
  exact groupKeys_sorted X

/-- Witness for C10: merging a catalog whose rows arrive in descending
id order succeeds and returns the rows in ascending id order. -/
theorem merge_output_sorted_by_id_witness :
    merge_items_per_day [rowNoAssets, itA0]
        = Except.ok (merged_records [rowNoAssets, itA0]) ∧
    ((merged_records [rowNoAssets, itA0]).map StacItem.id).Sorted (· ≤ ·) := by
  have hne : merged_records [rowNoAssets, itA0] ≠ [] :=
    merged_records_ne_nil (by decide)
  exact ⟨merge_ok _ hne, merge_output_sorted_by_id [rowNoAssets, itA0] _ (merge_ok _ hne)⟩

theorem rekey_map_fst {α β : Type} (l : List α) (v : Nat × α → β) :
    (l.enum.map (fun p => ("asset_" ++ toString p.1, v p))).map Prod.fst
      = assetKeyNames l.length := by
  rw [List.map_map]
  have h1 : (Prod.fst ∘ fun p : Nat × α => ("asset_" ++ toString p.1, v p))
      = ((fun i => "asset_" ++ toString i) ∘ Prod.fst) := rfl
  rw [h1, ← List.map_map, List.enum_map_fst]
  rfl

theorem rekey_keys {α β : Type} (l : List α) (v : Nat × α → β) :
    (l.enum.map (fun p => ("asset_" ++ toString p.1, v p))).map Prod.fst
      = assetKeyNames (l.enum.map (fun p => ("asset_" ++ toString p.1, v p))).length := by
  rw [List.length_map, List.enum_length]
  exact rekey_map_fst l v

theorem mem_merge_decomp {X : List StacItem} {it : StacItem}
    (h : it ∈ merged_records X) :
    ∃ k, it = merge_one k (X.filter (fun j => j.id = k)) := by
  obtain ⟨k, _, hk⟩ := List.mem_map.mp h
  exact ⟨k, hk.symm⟩

/-- C5: for every item produced by `create_stac_item` and every item of
every table the merge engine returns, the `assets` keys are exactly
`asset_0, asset_1, …, asset_{n-1}` where `n` is the number of assets. -/
theorem asset_keys_contiguous :
    (∀ (date : Option Int) (id : String) (specs : List AssetSpec) (t : String),
        (create_stac_item date id specs t).assets.map Prod.fst
          = assetKeyNames (create_stac_item date id specs t).assets.length) ∧
    (∀ (X Y : List StacItem), merge_items_per_day X = Except.ok Y →
        ∀ it ∈ Y, it.assets.map Prod.fst = assetKeyNames it.assets.length) := by
  constructor
  · intro date id specs t
    exact rekey_keys specs
      (fun p => some (Asset.mk p.2.url t ["data"]))
  · intro X Y hY it hit
    obtain rfl := merge_ok_eq hY
    obtain ⟨k, rfl⟩ := mem_merge_decomp hit
    exact rekey_keys (flatAssets (X.filter (fun j => j.id = k))) (fun p => some p.2)

/-- Witness for C5: the two-folder sample catalog merges successfully,
the merged item is in the returned table, and its asset keys are
`asset_0, asset_1`. -/
theorem asset_keys_contiguous_witness :
    merge_items_per_day [itA0, itB0] = Except.ok (merged_records [itA0, itB0]) ∧
    mergedAB ∈ merged_records [itA0, itB0] ∧
    mergedAB.assets.map Prod.fst = assetKeyNames mergedAB.assets.length :=
  ⟨rfl, by decide,
    asset_keys_contiguous.2 [itA0, itB0] (merged_records [itA0, itB0]) rfl
      mergedAB (by decide)⟩

/-- C7: the style link attacher has replace semantics — applying
`add_style_link` twice with the same style URL yields the same links
sequence as applying it once. -/
theorem add_style_link_idempotent (U : String) (row : StacItem) :
    add_style_link U { row with links := add_style_link U row }
      = add_style_link U row := by
  by_cases hU : U = ""
  · simp [add_style_link, hU]
  · by_cases hA : row.assets.map Prod.fst = []
    · simp [add_style_link, hU, hA]
    · simp [add_style_link, hU, hA, List.filter_append, List.filter_filter]

/-- C9: for an item whose assets map has no keys, `add_style_link`
returns the existing links unchanged even when a non-empty style URL is
configured. -/
theorem add_style_link_empty_assets (U : String) (row : StacItem)
    (h : row.assets = []) : add_style_link U row = row.links := by
  unfold add_style_link
  by_cases hU : U = ""
  · simp [hU]
  · simp [hU, h]

/-- Witness for C9: with a non-empty style URL and an asset-less row, the
links come back unchanged. -/
theorem add_style_link_empty_assets_witness :
    rowNoAssets.assets = [] ∧
    add_style_link "https://s.example/style.json" rowNoAssets = rowNoAssets.links :=
  ⟨rfl, add_style_link_empty_assets "https://s.example/style.json" rowNoAssets rfl⟩

/-- Counterexample for C3: with an empty `asset_specs` list the
synthesizer does not fail — it silently returns a complete record with an
empty assets map, the empty-geometry envelope and `NaN` (`none`) bounds.
No `InvalidInput` error exists anywhere in the code. -/
theorem create_stac_item_empty_specs_returns_record :
    create_stac_item (some 0) "20240101_A" [] "application/zip"
      = { type := "Feature", stac_version := "1.0.0", id := "20240101_A",
          datetime := some 0, geometry := Geom.empty,
          bbox := [none, none, none, none], assets := [], links := [] } := rfl

/-- C3 (amended): the synthesizer performs no validation — for every
`date` (including the unset `none`, which `pd.to_datetime` maps to `NaT`)
and every id and media type, an empty `asset_specs` list silently
produces a record with empty assets, the empty-geometry envelope and
`NaN` (`none`) bounds, rather than failing with `InvalidInput`. -/
theorem create_stac_item_no_validation (date : Option Int) (id : String) (t : String) :
    create_stac_item date id [] t
      = { type := "Feature", stac_version := "1.0.0", id := id,
          datetime := date, geometry := Geom.empty,
          bbox := [none, none, none, none], assets := [], links := [] } := rfl

theorem style_hrefs_nodup {L : List Link} (hnd : (L.map linkKey).Nodup) :
    ((L.filter (fun l => l.rel = some "style")).map Link.href).Nodup := by
  have hsub : (L.filter (fun l => l.rel = some "style")).Sublist L :=
    List.filter_sublist _
  have hnd2 : ((L.filter (fun l => l.rel = some "style")).map linkKey).Nodup :=
    (hsub.map linkKey).nodup hnd
  have hkey : (L.filter (fun l => l.rel = some "style")).map linkKey
      = ((L.filter (fun l => l.rel = some "style")).map Link.href).map
          (fun h => ((some "style" : Option String), h)) := by
    rw [List.map_map]
    apply List.map_congr_left
    intro l hl
    have hrel : l.rel = some "style" := by
      have := (List.mem_filter.mp hl).2
      simpa using this
    simp [linkKey, Function.comp, hrel]
  rw [hkey] at hnd2
  exact hnd2.of_map _

/-- Counterexample for C6: dedup is by the pair `(rel, href)` only, so a
partition whose members carry style links with two different hrefs
produces a merged item with TWO `rel = "style"` links — the claimed
"at most one link has rel == style" is false. -/
theorem merge_two_style_links_survive :
    (merge_items_per_day [styleU1, styleU2]).map
        (List.map (fun it => (it.links.filter (fun l => l.rel = some "style")).length))
      = Except.ok [2] := rfl

/-- C6 (amended): every merged item's links are the concatenation of the
partition members' links in member order, deduplicated by `(rel, href)`
keeping the first occurrence; consequently no two links of an output item
share the same `(rel, href)` pair, and the style links have pairwise
distinct hrefs (so at most one style link survives whenever all members'
style links share one href, as a single-URL pipeline run produces — but
not in general). -/
theorem merge_links_deduped (X Y : List StacItem)
    (hY : merge_items_per_day X = Except.ok Y) :
    ∀ it ∈ Y,
      it.links = dedupLinks []
          ((X.filter (fun j => j.id = it.id)).flatMap StacItem.links) ∧
      (it.links.map linkKey).Nodup ∧
      ((it.links.filter (fun l => l.rel = some "style")).map Link.href).Nodup := by
  obtain rfl := merge_ok_eq hY
  intro it hit
  obtain ⟨k, rfl⟩ := mem_merge_decomp hit
  exact ⟨rfl, (dedupLinks_props _ _).1,
    style_hrefs_nodup (dedupLinks_props _ _).1⟩

/-- Witness for the amended C6: a concrete two-row partition whose
members repeat one `(rel, href)` link merges successfully and the merged
item's links are the deduplicated flattening with pairwise-distinct
`(rel, href)` keys. -/
theorem merge_links_deduped_witness :
    merge_items_per_day [itL1, itL2] = Except.ok (merged_records [itL1, itL2]) ∧
    mergedL ∈ merged_records [itL1, itL2] ∧
    (mergedL.links = dedupLinks []
        (([itL1, itL2].filter (fun j => j.id = mergedL.id)).flatMap StacItem.links) ∧
     (mergedL.links.map linkKey).Nodup ∧
     ((mergedL.links.filter (fun l => l.rel = some "style")).map Link.href).Nodup) :=
  ⟨rfl, by decide,
    merge_links_deduped [itL1, itL2] (merged_records [itL1, itL2]) rfl
      mergedL (by decide)⟩

/-- C8: the merge engine performs no asset dedup by href — every output
item's assets are exactly the unconditional flattening of all non-null
asset entries of its partition in member order, re-keyed; two members
carrying an asset with the same href therefore contribute two separate
entries. -/
theorem merge_assets_flatten_unconditional (X Y : List StacItem)
    (hY : merge_items_per_day X = Except.ok Y) :
    ∀ it ∈ Y,
      it.assets = (flatAssets (X.filter (fun j => j.id = it.id))).enum.map
          (fun p => ("asset_" ++ toString p.1, some p.2)) := by
  obtain rfl := merge_ok_eq hY
  intro it hit
  obtain ⟨k, rfl⟩ := mem_merge_decomp hit
  rfl

/-- Witness for C8: two partition members with an identical asset href
merge successfully into an item whose assets hold that asset twice
(`asset_0` and `asset_1`), as the flattening equation states. -/
theorem merge_assets_flatten_unconditional_witness :
    merge_items_per_day [itD1, itD2] = Except.ok (merged_records [itD1, itD2]) ∧
    mergedD ∈ merged_records [itD1, itD2] ∧
    mergedD.assets = (flatAssets ([itD1, itD2].filter (fun j => j.id = mergedD.id))).enum.map
        (fun p => ("asset_" ++ toString p.1, some p.2)) :=
  ⟨rfl, by decide,
    merge_assets_flatten_unconditional [itD1, itD2] (merged_records [itD1, itD2]) rfl
      mergedD (by decide)⟩
